import Mathlib

/-!
Verification development for the ZilaWS client (message correlation and
dispatch engine).

The repository ships three snapshots of the client class:
* the current variant (src/src/index.ts, lines 1-444), which routes all
  outbound envelopes through `getMessageJSON`;
* a legacy variant concatenated into the same file (lines 446-807);
* an intermediate variant (src/unnamed/part_000).

The definitions below are shallow embeddings of those snapshots.  JavaScript
values carried in envelopes are modelled by `Value`; `JSON.stringify` of an
argument array is modelled by `jsonLowerList` (functions and `undefined`
serialize to `null` inside arrays); an encoded wire message is modelled by the
`Envelope` record (the JSON text and the record determine each other).
-/

namespace ZilaWS

/-- Connection status enumeration (`WSStatus` in src/src/index.ts lines 16-21). -/
inductive WSStatus where
  | OPENING
  | OPEN
  | CLOSED
  | ERROR
deriving DecidableEq, Repr

/-- A transport-carried JavaScript value.  `undef` is `undefined`; `func`
is a callable value (non-serializable); `arr` is a nested array. -/
inductive Value where
  | undef
  | null
  | bool (b : Bool)
  | num (n : Int)
  | str (s : String)
  | arr (elems : List Value)
  | func

mutual

/-- How `JSON.stringify` serializes one element of an argument array:
functions and `undefined` become `null`, arrays are serialized elementwise,
every other value is kept. -/
def jsonLower : Value → Value
  | Value.func => Value.null
  | Value.undef => Value.null
  | Value.arr l => Value.arr (jsonLowerList l)
  | v => v

/-- Elementwise `jsonLower` over an argument array. -/
def jsonLowerList : List Value → List Value
  | [] => []
  | v :: vs => jsonLower v :: jsonLowerList vs

end

/-- The wire unit `{identifier, message, callbackId}` (`WSMessage`,
src/src/index.ts lines 23-27).  `message = none` models JSON `null`,
`some args` models an argument array (truthy in JavaScript even when empty). -/
structure Envelope where
  identifier : String
  message : Option (List Value)
  callbackId : Option String

/-- Envelope construction of the current variant (`getMessageJSON`,
src/src/index.ts lines 238-250).  The source reads
`identifier: isBuiltIn ? identifier : "@" + identifier`, so a *non*-built-in
identifier gets the control sigil prepended and a built-in one does not. -/
def getMessageJSON (identifier : String) (data : Option (List Value))
    (callbackId : Option String) (isBuiltIn : Bool) : Envelope :=
  { identifier := if isBuiltIn then identifier else "@" ++ identifier,
    message := Option.map jsonLowerList data,
    callbackId := callbackId }

/-- The envelope written to the transport by `send` (current variant,
src/src/index.ts lines 267-269): `getMessageJSON(identifier, data, null)`
with the default `isBuiltIn = false`. -/
def send (identifier : String) (data : List Value) : Envelope :=
  getMessageJSON identifier (some data) none false

/-- The envelope written by `bSend` (built-in systems, src/src/index.ts
lines 257-260): `getMessageJSON(identifier, data, null, true)`. -/
def bSend (identifier : String) (data : List Value) : Envelope :=
  getMessageJSON identifier (some data) none true

/-- Eagerly raised argument errors of the second and third snapshots. -/
inductive SendError where
  | nonSerializableArgument
deriving DecidableEq, Repr

/-- Whether a value is a callable (`typeof el == "function"`). -/
def isFuncValue : Value → Bool
  | Value.func => true
  | _ => false

/-- The current variant's `send` viewed as a fallible call
(src/src/index.ts lines 267-269).  The source body contains no
serializability check at all, so the call always hands exactly one envelope
to the transport. -/
def sendMainVariant (identifier : String) (data : List Value) :
    Except SendError Envelope :=
  Except.ok (send identifier data)

/-- The intermediate snapshot's `send` (src/unnamed/part_000 lines 231-243):
it throws when the argument array contains a function, otherwise writes
`{callbackId: null, message: data, identifier}` with the identifier untouched. -/
def sendPart000 (identifier : String) (data : List Value) :
    Except SendError Envelope :=
  if data.any isFuncValue then Except.error SendError.nonSerializableArgument
  else Except.ok { identifier := identifier,
                   message := some (jsonLowerList data),
                   callbackId := none }

/-- The body of a registered `ZilaWSCallback`, as a first-order program so
that a handler body can itself re-register a handler.  `ret f` computes a
value from the positional arguments; `resolveFirst` is the closure the
current variant's `waiter` registers (`(args) => resolve(args)`, a
one-parameter function, so invoked with spread arguments it receives only
the first one); `setOnceThenRet id body f` calls
`onceMessageHandler(id, body)` from within its own body and then returns
`f args`. -/
inductive CBody where
  | ret (f : List Value → Value)
  | resolveFirst
  | setOnceThenRet (id : String) (body : CBody) (f : List Value → Value)

/-- A handler-table entry: `plain` is a `setMessageHandler` registration and
`once` is the self-removing wrapper installed by `onceMessageHandler`
(src/src/index.ts lines 380-386). -/
inductive HEntry where
  | plain (body : CBody)
  | once (body : CBody)

/-- JavaScript object property assignment `obj[i] = e`: an existing key keeps
its position and gets the new value, a new key is appended. -/
def objSet (t : List (String × HEntry)) (i : String) (e : HEntry) :
    List (String × HEntry) :=
  if t.any (fun p => p.1 == i) then
    t.map (fun p => if p.1 == i then (i, e) else p)
  else t ++ [(i, e)]

/-- JavaScript property read `this.callbacks[identifier]`. -/
def lookupHandler (t : List (String × HEntry)) (i : String) : Option HEntry :=
  Option.map (fun p => p.2) (t.find? (fun p => p.1 == i))

/-- Property deletion `delete this.callbacks[identifier]`
(`removeMessageHandler`, src/src/index.ts lines 371-373). -/
def removeMessageHandler (t : List (String × HEntry)) (i : String) :
    List (String × HEntry) :=
  t.filter (fun p => p.1 != i)

/-- Permanent registration (`setMessageHandler`, src/src/index.ts
lines 363-365): registers or replaces. -/
def setMessageHandler (t : List (String × HEntry)) (i : String) (b : CBody) :
    List (String × HEntry) :=
  objSet t i (HEntry.plain b)

/-- One-shot registration (`onceMessageHandler`, src/src/index.ts
lines 380-386): stores the wrapper that removes itself before awaiting the
wrapped callback. -/
def onceMessageHandler (t : List (String × HEntry)) (i : String) (b : CBody) :
    List (String × HEntry) :=
  objSet t i (HEntry.once b)

/-- Run a callback body on the positional arguments.  Returns the handler
table after any re-registration performed by the body, the callback's return
value, and the value passed to a captured `resolve`, if any. -/
def runBody (b : CBody) (args : List Value) (t : List (String × HEntry)) :
    List (String × HEntry) × Value × Option Value :=
  match b with
  | CBody.ret f => (t, f args, none)
  | CBody.resolveFirst => (t, Value.undef, some (args.headD Value.undef))
  | CBody.setOnceThenRet i b2 f => (onceMessageHandler t i b2, f args, none)

/-- Test `msgObj.identifier[0] == "@"` (src/src/index.ts line 188): for the
empty string `identifier[0]` is `undefined`, which is not equal to `"@"`. -/
def isControlIdentifier (s : String) : Bool :=
  match s.data with
  | [] => false
  | c :: _ => c == '@'

/-- The two ways the unguarded decode of `callEventHandler` can throw:
`JSON.parse` on invalid text, or the `identifier[0]` subscript when the
decoded object lacks an `identifier` string. -/
inductive DecodeErr where
  | parseException
  | missingIdentifier
deriving DecidableEq, Repr

/-- The connection state the dispatch loop reads and writes. -/
structure DispatchState where
  callbacks : List (String × HEntry)
  status : WSStatus

/-- Observable outcome of one run of the dispatch loop: the new handler
table, the (unchanged) status, which listener groups were notified, whether
a registered handler was invoked, the envelopes handed to the transport,
the value a waiter resolver received, and the exception escaping the async
function, if any. -/
structure DispatchResult where
  callbacks : List (String × HEntry)
  status : WSStatus
  rawNotified : Bool
  msgNotified : Bool
  invoked : Bool
  sent : List Envelope
  resolved : Option Value
  raised : Option DecodeErr

/-- The dispatch loop of the current variant (`callEventHandler`,
src/src/index.ts lines 178-228).  The raw-message listeners always run
first; then the decode result is examined: a decode failure propagates out
of the async function uncaught (there is no try/catch around `JSON.parse`);
a control identifier (leading `@`) returns before the message listeners; an
ordinary envelope notifies the message listeners and, when a handler is
registered and `msgObj.message` is truthy, invokes it — a `once` wrapper
removes itself first — and auto-replies through `send` when the inbound
`callbackId` is truthy. -/
def callEventHandler : DispatchState → Except DecodeErr Envelope → DispatchResult
  | st, Except.error e =>
    { callbacks := st.callbacks, status := st.status, rawNotified := true,
      msgNotified := false, invoked := false, sent := [], resolved := none,
      raised := some e }
  | st, Except.ok m =>
    if isControlIdentifier m.identifier then
      { callbacks := st.callbacks, status := st.status, rawNotified := true,
        msgNotified := false, invoked := false, sent := [], resolved := none,
        raised := none }
    else
      match lookupHandler st.callbacks m.identifier, m.message with
      | some entry, some args =>
        let step :=
          match entry with
          | HEntry.plain b => runBody b args st.callbacks
          | HEntry.once b => runBody b args (removeMessageHandler st.callbacks m.identifier)
        { callbacks := step.1, status := st.status, rawNotified := true,
          msgNotified := true, invoked := true,
          sent :=
            match m.callbackId with
            | some cid => if cid.isEmpty then [] else [send cid [step.2.1]]
            | none => [],
          resolved := step.2.2, raised := none }
      | _, _ =>
        { callbacks := st.callbacks, status := st.status, rawNotified := true,
          msgNotified := true, invoked := false, sent := [], resolved := none,
          raised := none }

/-- Result of a `waiter` call (current variant, src/src/index.ts
lines 277-287): the handler table after `onceMessageHandler(uuid, resolver)`
has run, and the envelope subsequently handed to the transport.  The
generated `randomUUID()` is passed in as the explicit parameter `uuid`. -/
structure WaiterCall where
  callbacks : List (String × HEntry)
  sent : Envelope

/-- The `waiter` call of the current variant: registers the one-shot
resolver under the fresh correlation id, then sends
`getMessageJSON(identifier, data, uuid)`. -/
def waiter (t : List (String × HEntry)) (identifier : String)
    (data : List Value) (uuid : String) : WaiterCall :=
  { callbacks := onceMessageHandler t uuid CBody.resolveFirst,
    sent := getMessageJSON identifier (some data) (some uuid) false }

/-- A local-event callback, identified by reference (`tag`); `throws` says
whether invoking it raises an exception. -/
structure Listener where
  tag : Nat
  throws : Bool

/-- The notification loop shared by the status setter (src/src/index.ts
lines 81-85) and the message-listener loops (lines 179-183, 214-218):
`for (const callback of list) callback(v)` with no try/catch, so an
exception thrown by one callback aborts the loop and propagates.  Returns
the invocations actually performed (callback tag paired with the delivered
argument, in order) and whether an exception escaped. -/
def notifyLoop (v : WSStatus) : List Listener → List (Nat × WSStatus) × Bool
  | [] => ([], false)
  | l :: rest =>
    if l.throws then ([(l.tag, v)], true)
    else
      let r := notifyLoop v rest
      ((l.tag, v) :: r.1, r.2)

/-- Errors raised by the listener-registry operations. -/
inductive RegError where
  | duplicateListener
  | referenceError
deriving DecidableEq, Repr

/-- JavaScript `array.findIndex(el => el === callback)`: index of the first
occurrence, `-1` when absent. -/
def jsFindIndex (array : List Nat) (cb : Nat) : Int :=
  match array with
  | [] => -1
  | a :: rest =>
    if a == cb then 0
    else
      let r := jsFindIndex rest cb
      if r == -1 then -1 else r + 1

/-- The current variant's `addEventListener` (src/src/index.ts
lines 306-317) acting on one event type's slot (`none` = no entry): throws
`DuplicateListener` when `findIndex(el => el === callback) >= 0`, otherwise
pushes the callback at the end. -/
def addEventListenerV2 (slot : Option (List Nat)) (cb : Nat) :
    Except RegError (List Nat) :=
  match slot with
  | none => Except.ok [cb]
  | some array =>
    if 0 ≤ jsFindIndex array cb then Except.error RegError.duplicateListener
    else Except.ok (array ++ [cb])

/-- The legacy variant's `addEventListener` (src/src/index.ts
lines 681-692): the guard is `if (array.findIndex((el) => el == callback))`,
i.e. it throws whenever the returned index is truthy — any nonzero index,
including `-1` for an absent callback — and lets a duplicate sitting at
index `0` through. -/
def addEventListenerV1 (slot : Option (List Nat)) (cb : Nat) :
    Except RegError (List Nat) :=
  match slot with
  | none => Except.ok [cb]
  | some array =>
    if jsFindIndex array cb == 0 then Except.ok (array ++ [cb])
    else Except.error RegError.duplicateListener

/-- The current variant's `removeEventListener` (src/src/index.ts
lines 324-337): returns untouched when the event type has no entry or
`indexOf` yields `-1`; otherwise splices out the first occurrence and
deletes the entry entirely when the array becomes empty.  The function body
contains no throw. -/
def removeEventListenerV2 (slot : Option (List Nat)) (cb : Nat) :
    Option (List Nat) :=
  match slot with
  | none => none
  | some array =>
    if array.contains cb then
      let arr2 := array.erase cb
      if arr2.isEmpty then none else some arr2
    else some array

/-- The legacy variant's `removeEventListener` (src/src/index.ts
lines 699-717): warns and returns when the event type has no entry, but
throws `ReferenceError` when the callback is not found; otherwise splices
and deletes the empty entry like the current variant. -/
def removeEventListenerV1 (slot : Option (List Nat)) (cb : Nat) :
    Except RegError (Option (List Nat)) :=
  match slot with
  | none => Except.ok none
  | some array =>
    if array.contains cb then
      let arr2 := array.erase cb
      Except.ok (if arr2.isEmpty then none else some arr2)
    else Except.error RegError.referenceError

/-- Transport lifecycle callbacks delivered to the current variant's
connection object. -/
inductive WSEvent where
  | openEv
  | closeEv
  | errorEv
deriving DecidableEq, Repr

/-- The status transition performed by the current variant's lifecycle
handlers (src/src/index.ts lines 149-172): `onopen` assigns `OPEN`,
`onclose` assigns `CLOSED`; the `onerror` hook installed by `connectTo`
only logs and never touches the status field. -/
def statusStep (s : WSStatus) (e : WSEvent) : WSStatus :=
  match e with
  | WSEvent.openEv => WSStatus.OPEN
  | WSEvent.closeEv => WSStatus.CLOSED
  | WSEvent.errorEv => s

/-- The sequence of values delivered to `onStatusChange` listeners over a
trace of lifecycle events: the setter (src/src/index.ts lines 79-86) first
stores the assigned value and then notifies every listener with exactly that
value, so each `open` delivers `OPEN` and each `close` delivers `CLOSED`;
`error` performs no assignment and delivers nothing. -/
def notifiedStatuses (tr : List WSEvent) : List WSStatus :=
  tr.filterMap (fun e =>
    match e with
    | WSEvent.openEv => some WSStatus.OPEN
    | WSEvent.closeEv => some WSStatus.CLOSED
    | WSEvent.errorEv => none)

/-- Transport wellformedness: no `open` callback is delivered after a
`close` or `error` callback (the transport opens a connection at most once,
and only before tearing it down). -/
def noOpenAfterClose : List WSEvent → Bool
  | [] => true
  | WSEvent.closeEv :: rest =>
    (rest.all (fun e => e != WSEvent.openEv) && noOpenAfterClose rest)
  | WSEvent.errorEv :: rest =>
    (rest.all (fun e => e != WSEvent.openEv) && noOpenAfterClose rest)
  | _ :: rest => noOpenAfterClose rest

/-! Helper lemmas about the handler table and the dispatch loop. -/

theorem lookupHandler_objSet_self (t : List (String × HEntry)) (i : String)
    (e : HEntry) : lookupHandler (objSet t i e) i = some e := by
  induction t with
  | nil => simp [objSet, lookupHandler]
  | cons p rest ih =>
    by_cases h : p.1 = i
    · simp [objSet, lookupHandler, List.any_cons, h, List.find?_cons]
    · by_cases hany : rest.any (fun q => q.1 == i)
      · have h1 : objSet (p :: rest) i e =
            p :: (rest.map (fun q => if q.1 == i then (i, e) else q)) := by
          simp [objSet, List.any_cons, h, hany]
        have h2 : objSet rest i e =
            rest.map (fun q => if q.1 == i then (i, e) else q) := by
          simp [objSet, hany]
        rw [h1, ← h2]
        simpa [lookupHandler, List.find?_cons, h] using ih
      · have h1 : objSet (p :: rest) i e = p :: (rest ++ [(i, e)]) := by
          simp [objSet, List.any_cons, h, hany]
        have h2 : objSet rest i e = rest ++ [(i, e)] := by
          simp [objSet, hany]
        rw [h1, ← h2]
        simpa [lookupHandler, List.find?_cons, h] using ih

theorem lookupHandler_removeMessageHandler_self (t : List (String × HEntry))
    (i : String) : lookupHandler (removeMessageHandler t i) i = none := by
  induction t with
  | nil => rfl
  | cons p rest ih =>
    by_cases h : p.1 = i
    · simp only [removeMessageHandler, List.filter_cons] at ih ⊢
      simp [h, ih]
    · simp only [removeMessageHandler, List.filter_cons] at ih ⊢
      simp [lookupHandler, List.find?_cons, h, ih]

theorem callEventHandler_no_handler (st : DispatchState) (m : Envelope)
    (hc : isControlIdentifier m.identifier = false)
    (h : lookupHandler st.callbacks m.identifier = none) :
    callEventHandler st (Except.ok m) =
      { callbacks := st.callbacks, status := st.status, rawNotified := true,
        msgNotified := true, invoked := false, sent := [], resolved := none,
        raised := none } := by
  rw [callEventHandler, hc, h]
  cases m.message <;> rfl

theorem callEventHandler_found (st : DispatchState) (m : Envelope)
    (entry : HEntry) (args : List Value)
    (hc : isControlIdentifier m.identifier = false)
    (h : lookupHandler st.callbacks m.identifier = some entry)
    (hm : m.message = some args) :
    callEventHandler st (Except.ok m) =
      (let step :=
        match entry with
        | HEntry.plain b => runBody b args st.callbacks
        | HEntry.once b => runBody b args (removeMessageHandler st.callbacks m.identifier)
      { callbacks := step.1, status := st.status, rawNotified := true,
        msgNotified := true, invoked := true,
        sent :=
          match m.callbackId with
          | some cid => if cid.isEmpty then [] else [send cid [step.2.1]]
          | none => [],
        resolved := step.2.2, raised := none }) := by
  rw [callEventHandler, hc, h, hm]
  rfl

theorem callEventHandler_null_message (st : DispatchState) (m : Envelope)
    (hc : isControlIdentifier m.identifier = false)
    (hm : m.message = none) :
    callEventHandler st (Except.ok m) =
      { callbacks := st.callbacks, status := st.status, rawNotified := true,
        msgNotified := true, invoked := false, sent := [], resolved := none,
        raised := none } := by
  rw [callEventHandler, hc, hm]
  cases lookupHandler st.callbacks m.identifier <;> rfl

/-! Claim theorems. -/

/-- C1.  The claim says every outbound envelope carries the caller-supplied
identifier (respectively the inbound `callbackId`) unaltered.  Evaluating the
current variant shows the opposite: `getMessageJSON`'s inverted `isBuiltIn`
ternary prepends the control sigil `@` to every ordinary `send`/`waiter`
envelope and to every dispatch-loop auto-reply, while the built-in path
(`bSend`) emits its identifier without the sigil the control plane reserves
for it. -/
theorem getMessageJSON_prepends_sigil :
    send "sample" [Value.str "x"] =
      { identifier := "@sample", message := some [Value.str "x"], callbackId := none }
    ∧ ("@sample" : String) ≠ "sample"
    ∧ (waiter ([] : List (String × HEntry)) "sample" [Value.str "x"] "u1").sent =
      { identifier := "@sample", message := some [Value.str "x"], callbackId := some "u1" }
    ∧ (callEventHandler
        { callbacks := [("echo", HEntry.plain (CBody.ret (fun _ => Value.num 7)))],
          status := WSStatus.OPEN }
        (Except.ok { identifier := "echo", message := some [], callbackId := some "cb1" })).sent =
      [{ identifier := "@cb1", message := some [Value.num 7], callbackId := none }]
    ∧ ("@cb1" : String) ≠ "cb1"
    ∧ bSend "SyncCookies" [Value.str "c"] =
      { identifier := "SyncCookies", message := some [Value.str "c"], callbackId := none } := by
  refine ⟨rfl, by decide, rfl, rfl, by decide, rfl⟩

/-- C2.  The claim says `send`/`waiter` raise `NonSerializableArgument`
before anything reaches the transport whenever an argument is callable.  The
current variant's `send` and `waiter` contain no such check: with a callable
argument they raise nothing and hand exactly one envelope (the function
serialized to `null`) to the transport.  The intermediate snapshot
(src/unnamed/part_000) still performs the check the repository's own
`test.failing` tests expect. -/
theorem send_function_argument_not_rejected :
    sendMainVariant "Client-Server" [Value.func] =
      Except.ok { identifier := "@Client-Server", message := some [Value.null],
                  callbackId := none }
    ∧ (waiter ([] : List (String × HEntry)) "SMTH" [Value.func] "u1").sent =
      { identifier := "@SMTH", message := some [Value.null], callbackId := some "u1" }
    ∧ sendPart000 "Client-Server" [Value.func] =
      Except.error SendError.nonSerializableArgument := by
  refine ⟨rfl, rfl, rfl⟩

/-- C3 counterexample.  The claim says a message that fails to decode is
reported as `MalformedEnvelope` and the dispatch loop returns without
raising.  In the current variant `JSON.parse` is unguarded: the decode
failure escapes `callEventHandler` as an uncaught exception (a rejected
promise), so the loop does raise and reports nothing. -/
theorem dispatch_decode_failure_raises_cex :
    (callEventHandler
      { callbacks := [("echo", HEntry.plain (CBody.ret (fun _ => Value.null)))],
        status := WSStatus.OPEN }
      (Except.error DecodeErr.parseException)).raised = some DecodeErr.parseException
    ∧ some DecodeErr.parseException ≠ (none : Option DecodeErr) := by
  refine ⟨rfl, by decide⟩

/-- C3 amended.  On a message whose text fails to decode (or whose decoded
object lacks the `identifier` field), the dispatch loop runs the raw-message
listeners, then aborts: no handler is invoked, nothing is sent, the handler
table and the connection status are unchanged, and the decode exception
escapes the async dispatch function uncaught and unreported instead of
being caught and logged. -/
theorem dispatch_decode_failure_aborts (st : DispatchState) (e : DecodeErr) :
    (callEventHandler st (Except.error e)).callbacks = st.callbacks
    ∧ (callEventHandler st (Except.error e)).status = st.status
    ∧ (callEventHandler st (Except.error e)).rawNotified = true
    ∧ (callEventHandler st (Except.error e)).msgNotified = false
    ∧ (callEventHandler st (Except.error e)).invoked = false
    ∧ (callEventHandler st (Except.error e)).sent = []
    ∧ (callEventHandler st (Except.error e)).raised = some e := by
  refine ⟨rfl, rfl, rfl, rfl, rfl, rfl, rfl⟩

/-- C5 counterexample.  The claim says the waiter promise resolves with the
full argument sequence when the reply carries more than one positional
argument.  The registered resolver is a one-parameter closure, so a reply
carrying `[1, 2]` resolves the promise with `1`, not with the sequence. -/
theorem waiter_resolves_first_not_sequence_cex :
    (callEventHandler
      { callbacks := (waiter ([] : List (String × HEntry)) "sample" [] "u1").callbacks,
        status := WSStatus.OPEN }
      (Except.ok { identifier := "u1", message := some [Value.num 1, Value.num 2],
                   callbackId := none })).resolved = some (Value.num 1)
    ∧ some (Value.num 1) ≠ some (Value.arr [Value.num 1, Value.num 2]) := by
  refine ⟨rfl, ?_⟩
  intro hcontra
  injection hcontra with h2
  exact Value.noConfusion h2

/-- C5 amended.  `waiter` registers the one-shot resolver under the fresh
correlation id before the envelope
`{identifier, message: args, callbackId: uuid}` reaches the transport (with
the identifier `@`-prefixed by the C1 slip); when the dispatch loop later
processes an inbound envelope whose identifier equals the correlation id
and whose message is non-null, the promise resolves with the first
positional argument (`undefined` when there are none) — arguments beyond
the first are dropped — and the one-shot entry is gone afterwards. -/
theorem waiter_resolves_first_argument (t : List (String × HEntry))
    (id uuid : String) (data msgArgs : List Value) (cid : Option String)
    (hu : isControlIdentifier uuid = false) :
    (waiter t id data uuid).sent =
      { identifier := "@" ++ id, message := some (jsonLowerList data),
        callbackId := some uuid }
    ∧ (callEventHandler
        { callbacks := (waiter t id data uuid).callbacks, status := WSStatus.OPEN }
        (Except.ok { identifier := uuid, message := some msgArgs, callbackId := cid })).invoked
      = true
    ∧ (callEventHandler
        { callbacks := (waiter t id data uuid).callbacks, status := WSStatus.OPEN }
        (Except.ok { identifier := uuid, message := some msgArgs, callbackId := cid })).resolved
      = some (msgArgs.headD Value.undef)
    ∧ lookupHandler
        (callEventHandler
          { callbacks := (waiter t id data uuid).callbacks, status := WSStatus.OPEN }
          (Except.ok { identifier := uuid, message := some msgArgs, callbackId := cid })).callbacks
        uuid
      = none := by
  have h1 := callEventHandler_found
    { callbacks := (waiter t id data uuid).callbacks, status := WSStatus.OPEN }
    { identifier := uuid, message := some msgArgs, callbackId := cid }
    (HEntry.once CBody.resolveFirst) msgArgs hu
    (lookupHandler_objSet_self t uuid (HEntry.once CBody.resolveFirst)) rfl
  refine ⟨rfl, by rw [h1], by rw [h1]; rfl, ?_⟩
  rw [h1]
  exact lookupHandler_removeMessageHandler_self (waiter t id data uuid).callbacks uuid

/-- C5 witness: the amended theorem applied at a concrete reply. -/
theorem waiter_resolves_first_argument_witness :
    isControlIdentifier "u1" = false
    ∧ (waiter ([] : List (String × HEntry)) "sample" [] "u1").sent =
      { identifier := "@" ++ "sample", message := some (jsonLowerList []),
        callbackId := some "u1" } :=
  ⟨by decide,
    (waiter_resolves_first_argument ([] : List (String × HEntry)) "sample" "u1" []
      [Value.num 3] none (by decide)).1⟩

/-- C6.  A handler registered via `onceMessageHandler` answers exactly one
inbound call: its wrapper removes the table entry before the wrapped
callback is awaited, so a callback that re-registers the same identifier
from within its own body (`setOnceThenRet`) is not clobbered by the
removal, and once a plain one-shot has run, a later envelope with the same
identifier finds no handler and is dropped silently — no invocation, no
reply, no exception. -/
theorem onceMessageHandler_one_shot (t : List (String × HEntry)) (id : String)
    (f f2 : List Value → Value) (b2 : CBody) (args : List Value)
    (cid : Option String) (hc : isControlIdentifier id = false) :
    (callEventHandler
        { callbacks := onceMessageHandler t id (CBody.ret f), status := WSStatus.OPEN }
        (Except.ok { identifier := id, message := some args, callbackId := cid })).invoked
      = true
    ∧ lookupHandler
        (callEventHandler
          { callbacks := onceMessageHandler t id (CBody.ret f), status := WSStatus.OPEN }
          (Except.ok { identifier := id, message := some args, callbackId := cid })).callbacks
        id
      = none
    ∧ (callEventHandler
        { callbacks :=
            (callEventHandler
              { callbacks := onceMessageHandler t id (CBody.ret f), status := WSStatus.OPEN }
              (Except.ok { identifier := id, message := some args, callbackId := cid })).callbacks,
          status := WSStatus.OPEN }
        (Except.ok { identifier := id, message := some args, callbackId := cid })).invoked
      = false
    ∧ (callEventHandler
        { callbacks :=
            (callEventHandler
              { callbacks := onceMessageHandler t id (CBody.ret f), status := WSStatus.OPEN }
              (Except.ok { identifier := id, message := some args, callbackId := cid })).callbacks,
          status := WSStatus.OPEN }
        (Except.ok { identifier := id, message := some args, callbackId := cid })).sent
      = []
    ∧ (callEventHandler
        { callbacks :=
            (callEventHandler
              { callbacks := onceMessageHandler t id (CBody.ret f), status := WSStatus.OPEN }
              (Except.ok { identifier := id, message := some args, callbackId := cid })).callbacks,
          status := WSStatus.OPEN }
        (Except.ok { identifier := id, message := some args, callbackId := cid })).raised
      = none
    ∧ lookupHandler
        (callEventHandler
          { callbacks := onceMessageHandler t id (CBody.setOnceThenRet id b2 f2),
            status := WSStatus.OPEN }
          (Except.ok { identifier := id, message := some args, callbackId := cid })).callbacks
        id
      = some (HEntry.once b2) := by
  have h1 := callEventHandler_found
    { callbacks := onceMessageHandler t id (CBody.ret f), status := WSStatus.OPEN }
    { identifier := id, message := some args, callbackId := cid }
    (HEntry.once (CBody.ret f)) args hc
    (lookupHandler_objSet_self t id (HEntry.once (CBody.ret f))) rfl
  have hnone : lookupHandler
      (callEventHandler
        { callbacks := onceMessageHandler t id (CBody.ret f), status := WSStatus.OPEN }
        (Except.ok { identifier := id, message := some args, callbackId := cid })).callbacks
      id = none := by
    rw [h1]
    exact lookupHandler_removeMessageHandler_self (onceMessageHandler t id (CBody.ret f)) id
  have h2 := callEventHandler_no_handler
    { callbacks :=
        (callEventHandler
          { callbacks := onceMessageHandler t id (CBody.ret f), status := WSStatus.OPEN }
          (Except.ok { identifier := id, message := some args, callbackId := cid })).callbacks,
      status := WSStatus.OPEN }
    { identifier := id, message := some args, callbackId := cid } hc hnone
  have h3 := callEventHandler_found
    { callbacks := onceMessageHandler t id (CBody.setOnceThenRet id b2 f2),
      status := WSStatus.OPEN }
    { identifier := id, message := some args, callbackId := cid }
    (HEntry.once (CBody.setOnceThenRet id b2 f2)) args hc
    (lookupHandler_objSet_self t id (HEntry.once (CBody.setOnceThenRet id b2 f2))) rfl
  refine ⟨by rw [h1], hnone, by rw [h2], by rw [h2], by rw [h2], ?_⟩
  rw [h3]
  exact lookupHandler_objSet_self
    (removeMessageHandler (onceMessageHandler t id (CBody.setOnceThenRet id b2 f2)) id)
    id (HEntry.once b2)

/-- C6 witness: the one-shot theorem applied at a concrete handler. -/
theorem onceMessageHandler_one_shot_witness :
    isControlIdentifier "h" = false
    ∧ (callEventHandler
        { callbacks :=
            onceMessageHandler ([] : List (String × HEntry)) "h"
              (CBody.ret (fun _ => Value.null)),
          status := WSStatus.OPEN }
        (Except.ok { identifier := "h", message := some [], callbackId := some "c" })).invoked
      = true :=
  ⟨by decide,
    (onceMessageHandler_one_shot ([] : List (String × HEntry)) "h"
      (fun _ => Value.null) (fun _ => Value.null) (CBody.ret (fun _ => Value.null))
      [] (some "c") (by decide)).1⟩

/-- C10.  A registered handler is invoked only on a truthy `message`: a
`null` message means no invocation and no auto-reply even when the envelope
carries a non-null `callbackId` (the remote waiter is never answered, and
the handler table is untouched), while an empty-array message is truthy and
invokes the handler with zero positional arguments, the auto-reply carrying
the handler's value on the empty argument list. -/
theorem dispatch_message_truthiness (t : List (String × HEntry)) (id c : String)
    (f : List Value → Value) (cid : Option String)
    (hc : isControlIdentifier id = false) (hne : c.isEmpty = false) :
    (callEventHandler
        { callbacks := setMessageHandler t id (CBody.ret f), status := WSStatus.OPEN }
        (Except.ok { identifier := id, message := none, callbackId := some c })).invoked
      = false
    ∧ (callEventHandler
        { callbacks := setMessageHandler t id (CBody.ret f), status := WSStatus.OPEN }
        (Except.ok { identifier := id, message := none, callbackId := some c })).sent
      = []
    ∧ (callEventHandler
        { callbacks := setMessageHandler t id (CBody.ret f), status := WSStatus.OPEN }
        (Except.ok { identifier := id, message := none, callbackId := some c })).callbacks
      = setMessageHandler t id (CBody.ret f)
    ∧ (callEventHandler
        { callbacks := setMessageHandler t id (CBody.ret f), status := WSStatus.OPEN }
        (Except.ok { identifier := id, message := some [], callbackId := cid })).invoked
      = true
    ∧ (callEventHandler
        { callbacks := setMessageHandler t id (CBody.ret f), status := WSStatus.OPEN }
        (Except.ok { identifier := id, message := some [], callbackId := some c })).sent
      = [send c [f []]] := by
  have h1 := callEventHandler_null_message
    { callbacks := setMessageHandler t id (CBody.ret f), status := WSStatus.OPEN }
    { identifier := id, message := none, callbackId := some c } hc rfl
  have h2 := callEventHandler_found
    { callbacks := setMessageHandler t id (CBody.ret f), status := WSStatus.OPEN }
    { identifier := id, message := some [], callbackId := cid }
    (HEntry.plain (CBody.ret f)) [] hc
    (lookupHandler_objSet_self t id (HEntry.plain (CBody.ret f))) rfl
  have h3 := callEventHandler_found
    { callbacks := setMessageHandler t id (CBody.ret f), status := WSStatus.OPEN }
    { identifier := id, message := some [], callbackId := some c }
    (HEntry.plain (CBody.ret f)) [] hc
    (lookupHandler_objSet_self t id (HEntry.plain (CBody.ret f))) rfl
  refine ⟨by rw [h1], by rw [h1], by rw [h1], by rw [h2], ?_⟩
  rw [h3]
  simp only [hne]
  rfl

/-- C10 witness: the truthiness theorem applied at a concrete handler. -/
theorem dispatch_message_truthiness_witness :
    (isControlIdentifier "h" = false ∧ String.isEmpty "c" = false)
    ∧ (callEventHandler
        { callbacks :=
            setMessageHandler ([] : List (String × HEntry)) "h"
              (CBody.ret (fun _ => Value.null)),
          status := WSStatus.OPEN }
        (Except.ok { identifier := "h", message := none, callbackId := some "c" })).invoked
      = false :=
  ⟨⟨by decide, by decide⟩,
    (dispatch_message_truthiness ([] : List (String × HEntry)) "h" "c"
      (fun _ => Value.null) none (by decide) (by decide)).1⟩

/-- C7 counterexample.  The claim says an exception raised by one callback
does not prevent the remaining callbacks from running.  The notification
loops have no try/catch, so when the first of two registered listeners
throws, the second is never invoked and the exception escapes. -/
theorem notify_exception_stops_loop_cex :
    notifyLoop WSStatus.OPEN
        [{ tag := 0, throws := true }, { tag := 1, throws := false }]
      = ([(0, WSStatus.OPEN)], true)
    ∧ ((1, WSStatus.OPEN) ∈
        (notifyLoop WSStatus.OPEN
          [{ tag := 0, throws := true }, { tag := 1, throws := false }]).1
       → False) := by
  refine ⟨rfl, by decide⟩

/-- C7 amended.  Notifying an event type's listeners runs the currently
registered callbacks synchronously, in insertion order, passing the same
argument to each — and when no callback throws, every one of them runs
exactly once; but an exception raised by one callback propagates out of the
loop immediately, so the callbacks after it do not run. -/
theorem notifyLoop_insertion_order (v : WSStatus) (pre post : List Listener)
    (bad : Listener) (hpre : ∀ l ∈ pre, l.throws = false)
    (hbad : bad.throws = true) :
    notifyLoop v pre = (pre.map (fun l => (l.tag, v)), false)
    ∧ notifyLoop v (pre ++ bad :: post) =
      (pre.map (fun l => (l.tag, v)) ++ [(bad.tag, v)], true) := by
  constructor
  · induction pre with
    | nil => rfl
    | cons l rest ih =>
      have hl : l.throws = false := hpre l (List.mem_cons_self l rest)
      have hr := ih (fun x hx => hpre x (List.mem_cons_of_mem l hx))
      simp [notifyLoop, hl, hr]
  · induction pre with
    | nil => simp [notifyLoop, hbad]
    | cons l rest ih =>
      have hl : l.throws = false := hpre l (List.mem_cons_self l rest)
      have hr := ih (fun x hx => hpre x (List.mem_cons_of_mem l hx))
      simp [notifyLoop, hl, hr]

/-- C7 witness: the amended loop theorem applied to concrete listeners. -/
theorem notifyLoop_insertion_order_witness :
    ((∀ l ∈ [({ tag := 0, throws := false } : Listener)], l.throws = false)
      ∧ ({ tag := 1, throws := true } : Listener).throws = true)
    ∧ notifyLoop WSStatus.OPEN [({ tag := 0, throws := false } : Listener)] =
      ([({ tag := 0, throws := false } : Listener)].map
        (fun l => (l.tag, WSStatus.OPEN)), false) :=
  ⟨⟨by decide, by decide⟩,
    (notifyLoop_insertion_order WSStatus.OPEN
      [({ tag := 0, throws := false } : Listener)]
      [({ tag := 2, throws := false } : Listener)]
      ({ tag := 1, throws := true } : Listener) (by decide) (by decide)).1⟩

/-- C8.  The claim says `addEventListener` raises `DuplicateListener` iff
the identical callback is already registered.  The current variant does
exactly that, but the legacy variant's guard
`if (array.findIndex((el) => el == callback))` tests the *truthiness of the
index*: with listener list `[1]`, adding the distinct callback `2` throws
(`findIndex` is `-1`, truthy) while re-adding the duplicate `1` (index `0`,
falsy) is accepted.  After one `removeEventListener`, re-adding through the
current variant succeeds. -/
theorem addEventListener_legacy_truthiness :
    addEventListenerV1 (some [1]) 2 = Except.error RegError.duplicateListener
    ∧ addEventListenerV1 (some [1]) 1 = Except.ok [1, 1]
    ∧ addEventListenerV2 (some [1]) 2 = Except.ok [1, 2]
    ∧ addEventListenerV2 (some [1]) 1 = Except.error RegError.duplicateListener
    ∧ removeEventListenerV2 (some [1]) 1 = none
    ∧ addEventListenerV2 none 1 = Except.ok [1] := by
  refine ⟨rfl, rfl, rfl, rfl, rfl, rfl⟩

/-- C9 counterexample.  The claim says `removeEventListener` never throws.
The legacy variant throws `ReferenceError` when the event type has
registrations but the requested callback is not among them. -/
theorem removeEventListener_legacy_throws_cex :
    removeEventListenerV1 (some [1]) 2 = Except.error RegError.referenceError := rfl

/-- C9 amended.  The current variant's `removeEventListener` never throws:
it is a no-op when the event type has no entry or the callback is absent,
removing twice equals removing once (under the registry invariant that a
callback is registered at most once per event type), it never leaves an
empty callback list behind, and removing the last callback deletes the
entry.  The legacy variant returns safely only when the event type has no
entry; when an entry exists without the callback it throws
`ReferenceError`. -/
theorem removeEventListener_idempotent (slot : Option (List Nat)) (cb : Nat)
    (hinv : ∀ arr, slot = some arr → arr.count cb ≤ 1)
    (hne : slot ≠ some []) :
    removeEventListenerV2 (removeEventListenerV2 slot cb) cb
      = removeEventListenerV2 slot cb
    ∧ removeEventListenerV2 slot cb ≠ some []
    ∧ removeEventListenerV2 (some [cb]) cb = none
    ∧ removeEventListenerV1 none cb = Except.ok none
    ∧ (∀ arr, cb ∉ arr →
        removeEventListenerV1 (some arr) cb = Except.error RegError.referenceError) := by
  have hkey : ∀ arr : List Nat, arr.count cb ≤ 1 → arr ≠ [] →
      removeEventListenerV2 (removeEventListenerV2 (some arr) cb) cb
        = removeEventListenerV2 (some arr) cb
      ∧ removeEventListenerV2 (some arr) cb ≠ some [] := by
    intro arr hcount harrne
    by_cases hmem : cb ∈ arr
    · have hcont : arr.contains cb = true := List.elem_iff.mpr hmem
      have herase : (arr.erase cb).count cb = 0 := by
        have h1 : arr.count cb = 1 := by
          have := List.count_pos_iff.mpr hmem
          omega
        rw [List.count_erase_self, h1]
      have hnotmem : cb ∉ arr.erase cb := List.count_eq_zero.mp herase
      have hncont2 : ¬ ((arr.erase cb).contains cb = true) := by
        intro hx
        exact hnotmem (List.elem_iff.mp hx)
      have hv : removeEventListenerV2 (some arr) cb =
          if (arr.erase cb).isEmpty then none else some (arr.erase cb) := by
        show (if arr.contains cb then
            if (arr.erase cb).isEmpty then none else some (arr.erase cb)
          else some arr) =
          if (arr.erase cb).isEmpty then none else some (arr.erase cb)
        rw [if_pos hcont]
      by_cases hemp : (arr.erase cb).isEmpty = true
      · have hv2 : removeEventListenerV2 (some arr) cb = none := by
          rw [hv, if_pos hemp]
        refine ⟨by rw [hv2]; rfl, by rw [hv2]; intro hx; exact Option.noConfusion hx⟩
      · have hv2 : removeEventListenerV2 (some arr) cb = some (arr.erase cb) := by
          rw [hv, if_neg hemp]
        have hv3 : removeEventListenerV2 (some (arr.erase cb)) cb = some (arr.erase cb) := by
          show (if (arr.erase cb).contains cb then
              if ((arr.erase cb).erase cb).isEmpty then none
              else some ((arr.erase cb).erase cb)
            else some (arr.erase cb)) = some (arr.erase cb)
          rw [if_neg hncont2]
        refine ⟨by rw [hv2, hv3], ?_⟩
        rw [hv2]
        intro hx
        injection hx with hx2
        rw [hx2] at hemp
        exact hemp rfl
    · have hncont : ¬ (arr.contains cb = true) := by
        intro hx
        exact hmem (List.elem_iff.mp hx)
      have hv : removeEventListenerV2 (some arr) cb = some arr := by
        show (if arr.contains cb then
            if (arr.erase cb).isEmpty then none else some (arr.erase cb)
          else some arr) = some arr
        rw [if_neg hncont]
      refine ⟨by rw [hv, hv], ?_⟩
      rw [hv]
      intro hx
      injection hx with hx2
      exact harrne hx2
  refine ⟨?_, ?_, ?_, rfl, ?_⟩
  · cases slot with
    | none => rfl
    | some arr =>
      exact (hkey arr (hinv arr rfl) (fun h => hne (by rw [h]))).1
  · cases slot with
    | none =>
      intro hx
      exact Option.noConfusion hx
    | some arr =>
      exact (hkey arr (hinv arr rfl) (fun h => hne (by rw [h]))).2
  · have hcont : ([cb] : List Nat).contains cb = true :=
      List.elem_iff.mpr (List.mem_singleton_self cb)
    have hv : removeEventListenerV2 (some [cb]) cb =
        if (([cb] : List Nat).erase cb).isEmpty then none
        else some (([cb] : List Nat).erase cb) := by
      show (if ([cb] : List Nat).contains cb then
          if (([cb] : List Nat).erase cb).isEmpty then none
          else some (([cb] : List Nat).erase cb)
        else some [cb]) =
        if (([cb] : List Nat).erase cb).isEmpty then none
        else some (([cb] : List Nat).erase cb)
      rw [if_pos hcont]
    rw [hv, List.erase_cons_head]
    rfl
  · intro arr hmem2
    have hncont : ¬ (arr.contains cb = true) := by
      intro hx
      exact hmem2 (List.elem_iff.mp hx)
    show (if arr.contains cb then
        Except.ok (if (arr.erase cb).isEmpty then none else some (arr.erase cb))
      else Except.error RegError.referenceError)
      = Except.error RegError.referenceError
    rw [if_neg hncont]

/-- C9 witness: the no-throw theorem applied to a concrete registry slot. -/
theorem removeEventListener_idempotent_witness :
    ((∀ arr, some [1, 2] = some arr → List.count 1 arr ≤ 1)
      ∧ some [1, 2] ≠ some ([] : List Nat))
    ∧ removeEventListenerV2 (removeEventListenerV2 (some [1, 2]) 1) 1
      = removeEventListenerV2 (some [1, 2]) 1 :=
  ⟨⟨fun arr h => by injection h with h2; rw [← h2]; decide,
      fun h => by injection h with h2; exact List.noConfusion h2⟩,
    (removeEventListener_idempotent (some [1, 2]) 1
      (fun arr h => by injection h with h2; rw [← h2]; decide)
      (fun h => by injection h with h2; exact List.noConfusion h2)).1⟩

/-! Helper lemmas for the connection state machine. -/

theorem notifiedStatuses_nil_of_counts (tr : List WSEvent)
    (h1 : tr.count WSEvent.openEv = 0) (h2 : tr.count WSEvent.closeEv = 0) :
    notifiedStatuses tr = [] := by
  induction tr with
  | nil => rfl
  | cons e rest ih =>
    cases e with
    | openEv => simp [List.count_cons_self] at h1
    | closeEv => simp [List.count_cons_self] at h2
    | errorEv =>
      have h1r : rest.count WSEvent.openEv = 0 := by
        rw [← List.count_cons_of_ne
          (show WSEvent.openEv ≠ WSEvent.errorEv by decide) rest]
        exact h1
      have h2r : rest.count WSEvent.closeEv = 0 := by
        rw [← List.count_cons_of_ne
          (show WSEvent.closeEv ≠ WSEvent.errorEv by decide) rest]
        exact h2
      simpa [notifiedStatuses, List.filterMap_cons] using ih h1r h2r

theorem notifiedStatuses_sublist_closed (tr : List WSEvent)
    (h1 : tr.count WSEvent.openEv = 0) (h2 : tr.count WSEvent.closeEv ≤ 1) :
    List.Sublist (notifiedStatuses tr) [WSStatus.CLOSED] := by
  induction tr with
  | nil => exact List.nil_sublist _
  | cons e rest ih =>
    cases e with
    | openEv => simp [List.count_cons_self] at h1
    | closeEv =>
      have h1r : rest.count WSEvent.openEv = 0 := by
        rw [← List.count_cons_of_ne
          (show WSEvent.openEv ≠ WSEvent.closeEv by decide) rest]
        exact h1
      have h2r : rest.count WSEvent.closeEv = 0 := by
        have := List.count_cons_self WSEvent.closeEv rest
        omega
      have hnil : notifiedStatuses rest = [] :=
        notifiedStatuses_nil_of_counts rest h1r h2r
      show List.Sublist (WSStatus.CLOSED :: notifiedStatuses rest) [WSStatus.CLOSED]
      rw [hnil]
    | errorEv =>
      have h1r : rest.count WSEvent.openEv = 0 := by
        rw [← List.count_cons_of_ne
          (show WSEvent.openEv ≠ WSEvent.errorEv by decide) rest]
        exact h1
      have h2r : rest.count WSEvent.closeEv ≤ 1 := by
        rw [← List.count_cons_of_ne
          (show WSEvent.closeEv ≠ WSEvent.errorEv by decide) rest]
        exact h2
      exact ih h1r h2r

theorem notifiedStatuses_sublist (tr : List WSEvent)
    (h1 : tr.count WSEvent.openEv ≤ 1) (h2 : tr.count WSEvent.closeEv ≤ 1)
    (h3 : noOpenAfterClose tr = true) :
    List.Sublist (notifiedStatuses tr) [WSStatus.OPEN, WSStatus.CLOSED] := by
  induction tr with
  | nil => exact List.nil_sublist _
  | cons e rest ih =>
    cases e with
    | openEv =>
      have h1r : rest.count WSEvent.openEv = 0 := by
        have := List.count_cons_self WSEvent.openEv rest
        omega
      have h2r : rest.count WSEvent.closeEv ≤ 1 := by
        rw [← List.count_cons_of_ne
          (show WSEvent.closeEv ≠ WSEvent.openEv by decide) rest]
        exact h2
      show List.Sublist (WSStatus.OPEN :: notifiedStatuses rest)
        (WSStatus.OPEN :: [WSStatus.CLOSED])
      exact List.Sublist.cons₂ WSStatus.OPEN
        (notifiedStatuses_sublist_closed rest h1r h2r)
    | closeEv =>
      have hparts : (rest.all (fun a => a != WSEvent.openEv)) = true
          ∧ noOpenAfterClose rest = true := by
        have hh : noOpenAfterClose (WSEvent.closeEv :: rest) =
            ((rest.all (fun a => a != WSEvent.openEv)) && noOpenAfterClose rest) := rfl
        rw [hh] at h3
        exact And.intro (Bool.and_elim_left h3) (Bool.and_elim_right h3)
      have hnoopen : WSEvent.openEv ∉ rest := by
        intro hmem
        have := List.all_eq_true.mp hparts.1 WSEvent.openEv hmem
        simp at this
      have h1r : rest.count WSEvent.openEv = 0 := List.count_eq_zero.mpr hnoopen
      have h2r : rest.count WSEvent.closeEv = 0 := by
        have := List.count_cons_self WSEvent.closeEv rest
        omega
      have hnil : notifiedStatuses rest = [] :=
        notifiedStatuses_nil_of_counts rest h1r h2r
      show List.Sublist (WSStatus.CLOSED :: notifiedStatuses rest)
        [WSStatus.OPEN, WSStatus.CLOSED]
      rw [hnil]
      exact List.Sublist.cons WSStatus.OPEN (List.Sublist.refl _)
    | errorEv =>
      have hparts : (rest.all (fun a => a != WSEvent.openEv)) = true
          ∧ noOpenAfterClose rest = true := by
        have hh : noOpenAfterClose (WSEvent.errorEv :: rest) =
            ((rest.all (fun a => a != WSEvent.openEv)) && noOpenAfterClose rest) := rfl
        rw [hh] at h3
        exact And.intro (Bool.and_elim_left h3) (Bool.and_elim_right h3)
      have h1r : rest.count WSEvent.openEv ≤ 1 := by
        rw [← List.count_cons_of_ne
          (show WSEvent.openEv ≠ WSEvent.errorEv by decide) rest]
        exact h1
      have h2r : rest.count WSEvent.closeEv ≤ 1 := by
        rw [← List.count_cons_of_ne
          (show WSEvent.closeEv ≠ WSEvent.errorEv by decide) rest]
        exact h2
      exact ih h1r h2r hparts.2

theorem foldl_statusStep_closed (mid : List WSEvent)
    (h : WSEvent.openEv ∉ mid) :
    List.foldl statusStep WSStatus.CLOSED mid = WSStatus.CLOSED := by
  induction mid with
  | nil => rfl
  | cons e rest ih =>
    cases e with
    | openEv => exact absurd (List.mem_cons_self _ _) h
    | closeEv => exact ih (fun hm => h (List.mem_cons_of_mem _ hm))
    | errorEv => exact ih (fun hm => h (List.mem_cons_of_mem _ hm))

theorem close_mem_of_foldl_closed (l : List WSEvent) (s0 : WSStatus)
    (h : List.foldl statusStep s0 l = WSStatus.CLOSED) :
    WSEvent.closeEv ∈ l ∨ s0 = WSStatus.CLOSED := by
  induction l generalizing s0 with
  | nil => exact Or.inr h
  | cons e rest ih =>
    rcases ih (statusStep s0 e) h with hm | hs
    · exact Or.inl (List.mem_cons_of_mem _ hm)
    · cases e with
      | openEv =>
        exact absurd hs (show WSStatus.OPEN ≠ WSStatus.CLOSED by decide)
      | closeEv => exact Or.inl (List.mem_cons_self _ _)
      | errorEv => exact Or.inr hs

theorem noOpenAfterClose_split (xs ys : List WSEvent)
    (h : noOpenAfterClose (xs ++ ys) = true) (hx : WSEvent.closeEv ∈ xs) :
    WSEvent.openEv ∉ ys := by
  induction xs with
  | nil => cases hx
  | cons e rest ih =>
    cases e with
    | closeEv =>
      have hh : noOpenAfterClose (WSEvent.closeEv :: (rest ++ ys)) =
          (((rest ++ ys).all (fun a => a != WSEvent.openEv))
            && noOpenAfterClose (rest ++ ys)) := rfl
      rw [List.cons_append, hh] at h
      intro hmem
      have := List.all_eq_true.mp (Bool.and_elim_left h) WSEvent.openEv
        (List.mem_append_right rest hmem)
      simp at this
    | openEv =>
      have h2 : noOpenAfterClose (rest ++ ys) = true := h
      have hx2 : WSEvent.closeEv ∈ rest := by
        rcases List.mem_cons.mp hx with heq | hm
        · exact absurd heq (by decide)
        · exact hm
      exact ih h2 hx2
    | errorEv =>
      have hh : noOpenAfterClose (WSEvent.errorEv :: (rest ++ ys)) =
          (((rest ++ ys).all (fun a => a != WSEvent.openEv))
            && noOpenAfterClose (rest ++ ys)) := rfl
      rw [List.cons_append, hh] at h
      have h2 : noOpenAfterClose (rest ++ ys) = true := Bool.and_elim_right h
      have hx2 : WSEvent.closeEv ∈ rest := by
        rcases List.mem_cons.mp hx with heq | hm
        · exact absurd heq (by decide)
        · exact hm
      exact ih h2 hx2

/-- C4.  Starting from `OPENING`, with each lifecycle callback delivered at
most once and the transport never delivering `open` after `close`/`error`,
the sequence of statuses delivered to `onStatusChange` listeners is a
sublist of `[OPEN, CLOSED]`: transitions follow strictly
`OPENING → OPEN → CLOSED` (the current variant never assigns `ERROR`, which
satisfies the claim's `CLOSED`-or-`ERROR` disjunction vacuously), and no
listener is notified with `OPEN` after a `CLOSED` notification.  Moreover
`CLOSED` is terminal for the value read through the public accessor: once
the folded status over a prefix of the trace is `CLOSED`, it stays `CLOSED`
over every longer prefix. -/
theorem status_notifications_monotone (tr : List WSEvent)
    (h1 : tr.count WSEvent.openEv ≤ 1) (h2 : tr.count WSEvent.closeEv ≤ 1)
    (h3 : noOpenAfterClose tr = true) :
    List.Sublist (notifiedStatuses tr) [WSStatus.OPEN, WSStatus.CLOSED]
    ∧ ∀ pre mid post, tr = pre ++ mid ++ post →
        List.foldl statusStep WSStatus.OPENING pre = WSStatus.CLOSED →
        List.foldl statusStep WSStatus.OPENING (pre ++ mid) = WSStatus.CLOSED := by
  refine ⟨notifiedStatuses_sublist tr h1 h2 h3, ?_⟩
  intro pre mid post htr hpre
  rw [List.foldl_append, hpre]
  have hcm : WSEvent.closeEv ∈ pre := by
    rcases close_mem_of_foldl_closed pre WSStatus.OPENING hpre with hm | hs
    · exact hm
    · exact absurd hs (by decide)
  have htr2 : tr = pre ++ (mid ++ post) := by
    rw [htr, List.append_assoc]
  have hsplit : noOpenAfterClose (pre ++ (mid ++ post)) = true := by
    rw [← htr2]
    exact h3
  have hno : WSEvent.openEv ∉ mid ++ post :=
    noOpenAfterClose_split pre (mid ++ post) hsplit hcm
  exact foldl_statusStep_closed mid (fun hm => hno (List.mem_append_left post hm))

/-- C4 witness: the monotonicity theorem applied to the trace
`[open, close]`. -/
theorem status_notifications_monotone_witness :
    ([WSEvent.openEv, WSEvent.closeEv].count WSEvent.openEv ≤ 1
      ∧ [WSEvent.openEv, WSEvent.closeEv].count WSEvent.closeEv ≤ 1
      ∧ noOpenAfterClose [WSEvent.openEv, WSEvent.closeEv] = true)
    ∧ List.Sublist (notifiedStatuses [WSEvent.openEv, WSEvent.closeEv])
        [WSStatus.OPEN, WSStatus.CLOSED] :=
  ⟨⟨by decide, by decide, by decide⟩,
    (status_notifications_monotone [WSEvent.openEv, WSEvent.closeEv]
      (by decide) (by decide) (by decide)).1⟩

end ZilaWS
